import Mathlib

set_option maxRecDepth 4000

namespace AccentChess

/-!
Verification development for the Accent-Chess repository.

Part 1 models the rules collaborator (the `chess` library exactly as the
repository uses it): boards, pseudo-legality, move application (`push`) and
FEN serialisation.  Part 2 embeds the repository's own code:
`moveFromFens` (src/utils/moveFromFens.py) and the UCI command dispatcher
(src/uci_handler.py, src/state.py).  Squares are numbered 0 = a1 .. 63 = h8,
piece types 1 = pawn .. 6 = king, as in the library.
-/

inductive PColor
  | white
  | black
deriving DecidableEq, Repr

def PColor.other : PColor → PColor
  | .white => .black
  | .black => .white

def PAWN : Nat := 1
def KNIGHT : Nat := 2
def BISHOP : Nat := 3
def ROOK : Nat := 4
def QUEEN : Nat := 5
def KING : Nat := 6

structure Piece where
  pt : Nat
  color : PColor
deriving DecidableEq, Repr

/-- A move as in `chess.Move`: origin square, target square, optional
promotion piece type. -/
structure PyMove where
  fromSq : Nat
  toSq : Nat
  promo : Option Nat := none
deriving DecidableEq, Repr

/-- `bool(move)` in the library: only `Move(0, 0)` with no promotion is
falsy (the null move). -/
def PyMove.isNull (m : PyMove) : Bool :=
  m.fromSq == 0 && m.toSq == 0 && m.promo == none

/-- A chess position as stored by `chess.Board`: piece placement, side to
move, castling rights (one flag per corner rook, mirroring the rook-square
bits of `castling_rights`), en-passant target square and move counters. -/
structure Board where
  pieceAt : Nat → Option Piece
  turn : PColor
  cwK : Bool
  cwQ : Bool
  cbK : Bool
  cbQ : Bool
  epSquare : Option Nat
  halfmove : Nat
  fullmove : Nat

def fileOf (sq : Nat) : Nat := sq % 8
def rankOf (sq : Nat) : Nat := sq / 8

def backRank : Nat → Nat
  | 0 => ROOK
  | 1 => KNIGHT
  | 2 => BISHOP
  | 3 => QUEEN
  | 4 => KING
  | 5 => BISHOP
  | 6 => KNIGHT
  | _ => ROOK

def startPlacement (sq : Nat) : Option Piece :=
  if sq ≤ 7 then some ⟨backRank sq, .white⟩
  else if sq ≤ 15 then some ⟨PAWN, .white⟩
  else if sq ≤ 47 then none
  else if sq ≤ 55 then some ⟨PAWN, .black⟩
  else some ⟨backRank (sq % 8), .black⟩

/-- `chess.Board(STARTING_FEN)`. -/
def startBoard : Board :=
  { pieceAt := startPlacement
    turn := .white
    cwK := true, cwQ := true, cbK := true, cbQ := true
    epSquare := none
    halfmove := 0
    fullmove := 1 }

/-- Square reached from `sq` by moving `df` files and `dr` ranks, if it is
on the board. -/
def shift (sq : Nat) (df dr : Int) : Option Nat :=
  let f : Int := (fileOf sq : Int) + df
  let r : Int := (rankOf sq : Int) + dr
  if 0 ≤ f ∧ f < 8 ∧ 0 ≤ r ∧ r < 8 then some (r * 8 + f).toNat else none

/-- The squares along one sliding direction, nearest first. -/
def raySquares (sq : Nat) (d : Int × Int) : List Nat :=
  (List.range 7).filterMap fun i => shift sq (d.1 * (i + 1)) (d.2 * (i + 1))

/-- Squares a slider on `sq` attacks in direction `d` given the occupancy
`occ`: every square up to and including the first occupied one. -/
def rayReach (occ : Nat → Bool) (sq : Nat) (d : Int × Int) : List Nat :=
  ((raySquares sq d).foldl
    (fun acc t =>
      if acc.2 then acc
      else (acc.1 ++ [t], occ t))
    ([], false)).1

def rookDirs : List (Int × Int) := [(1, 0), (-1, 0), (0, 1), (0, -1)]
def bishopDirs : List (Int × Int) := [(1, 1), (1, -1), (-1, 1), (-1, -1)]

def slideHits (occ : Nat → Bool) (sq target : Nat) (dirs : List (Int × Int)) : Bool :=
  dirs.any fun d => (rayReach occ sq d).contains target

def knightDeltas : List (Int × Int) :=
  [(1, 2), (2, 1), (2, -1), (1, -2), (-1, -2), (-2, -1), (-2, 1), (-1, 2)]

def kingDeltas : List (Int × Int) :=
  [(1, 0), (1, 1), (0, 1), (-1, 1), (-1, 0), (-1, -1), (0, -1), (1, -1)]

def stepHits (sq target : Nat) (deltas : List (Int × Int)) : Bool :=
  deltas.any fun d => shift sq d.1 d.2 == some target

/-- Squares attacked by a pawn of colour `c` standing on `sq`. -/
def pawnAttackHits (c : PColor) (sq target : Nat) : Bool :=
  match c with
  | .white => stepHits sq target [(-1, 1), (1, 1)]
  | .black => stepHits sq target [(-1, -1), (1, -1)]

/-- Does a piece of type `pt` and colour `c` standing on `s` attack `sq`,
with `occ` as the blocking occupancy (as in `attackers_mask`)? -/
def pieceAttacks (occ : Nat → Bool) (pt : Nat) (c : PColor) (s sq : Nat) : Bool :=
  if pt == PAWN then pawnAttackHits c s sq
  else if pt == KNIGHT then stepHits s sq knightDeltas
  else if pt == KING then stepHits s sq kingDeltas
  else if pt == BISHOP then slideHits occ s sq bishopDirs
  else if pt == ROOK then slideHits occ s sq rookDirs
  else if pt == QUEEN then slideHits occ s sq (rookDirs ++ bishopDirs)
  else false

/-- Occupancy of the board itself. -/
def occOf (b : Board) : Nat → Bool := fun sq => (b.pieceAt sq).isSome

/-- Is `sq` attacked by any piece of colour `byC`, sliding pieces being
blocked according to `occ` (the occupancy may be modified, as in
`_attacked_for_king`)? -/
def isAttacked (b : Board) (byC : PColor) (occ : Nat → Bool) (sq : Nat) : Bool :=
  (List.range 64).any fun s =>
    match b.pieceAt s with
    | some p => p.color == byC && pieceAttacks occ p.pt p.color s sq
    | none => false

def hasPt (b : Board) (pt sq : Nat) : Bool :=
  match b.pieceAt sq with
  | some p => p.pt == pt
  | none => false

def hasColor (b : Board) (c : PColor) (sq : Nat) : Bool :=
  match b.pieceAt sq with
  | some p => p.color == c
  | none => false

/-- `clean_castling_rights`, white kingside bit: right set, white rook on h1,
white king on e1. -/
def cleanCwK (b : Board) : Bool :=
  b.cwK && b.pieceAt 7 == some ⟨ROOK, .white⟩ && b.pieceAt 4 == some ⟨KING, .white⟩

def cleanCwQ (b : Board) : Bool :=
  b.cwQ && b.pieceAt 0 == some ⟨ROOK, .white⟩ && b.pieceAt 4 == some ⟨KING, .white⟩

def cleanCbK (b : Board) : Bool :=
  b.cbK && b.pieceAt 63 == some ⟨ROOK, .black⟩ && b.pieceAt 60 == some ⟨KING, .black⟩

def cleanCbQ (b : Board) : Bool :=
  b.cbQ && b.pieceAt 56 == some ⟨ROOK, .black⟩ && b.pieceAt 60 == some ⟨KING, .black⟩

/-- `_from_chess960` in standard mode: a king-to-rook target on the home
squares is rewritten to the king's castled destination. -/
def fromChess960 (b : Board) (f t : Nat) : PyMove :=
  if f == 4 && hasPt b KING 4 then
    if t == 7 then ⟨4, 6, none⟩
    else if t == 0 then ⟨4, 2, none⟩
    else ⟨f, t, none⟩
  else if f == 60 && hasPt b KING 60 then
    if t == 63 then ⟨60, 62, none⟩
    else if t == 56 then ⟨60, 58, none⟩
    else ⟨f, t, none⟩
  else ⟨f, t, none⟩

/-- `_to_chess960` in standard mode: the king's castled destination is
rewritten to the rook's square. -/
def toChess960 (b : Board) (m : PyMove) : PyMove :=
  if m.fromSq == 4 && hasPt b KING 4 then
    if m.toSq == 6 && !(hasPt b ROOK 6) then ⟨4, 7, none⟩
    else if m.toSq == 2 && !(hasPt b ROOK 2) then ⟨4, 0, none⟩
    else m
  else if m.fromSq == 60 && hasPt b KING 60 then
    if m.toSq == 62 && !(hasPt b ROOK 62) then ⟨60, 63, none⟩
    else if m.toSq == 58 && !(hasPt b ROOK 58) then ⟨60, 56, none⟩
    else m
  else m

def occToggle (occ : Nat → Bool) (sqs : List Nat) : Nat → Bool :=
  fun s => if sqs.contains s then !(occ s) else occ s

/-- Squares with index strictly between `a` and `c` (used on one back rank
only, as in `between`). -/
def betweenSq (a c : Nat) : List Nat :=
  (List.range 64).filter fun s => (a < s ∧ s < c) ∨ (c < s ∧ s < a)

/-- `generate_castling_moves` for the side to move (standard chess): yields
the standard-encoded castling moves whose paths are free and unattacked. -/
def castlingGen (b : Board) : List PyMove :=
  let base : Nat := if b.turn == .white then 0 else 56
  let kingSq := base + 4
  let rookSqs : List Nat :=
    (if (if b.turn == .white then cleanCwK b else cleanCbK b) then [base + 7] else []) ++
    (if (if b.turn == .white then cleanCwQ b else cleanCbQ b) then [base] else [])
  rookSqs.filterMap fun rookSq =>
    let aSide := rookSq < kingSq
    let kingTo := base + (if aSide then 2 else 6)
    let rookTo := base + (if aSide then 3 else 5)
    let kingPath := betweenSq kingSq kingTo
    let rookPath := betweenSq rookSq rookTo
    let occNoKR := occToggle (occOf b) [kingSq, rookSq]
    let emptyOk := (kingPath ++ rookPath ++ [kingTo, rookTo]).all fun s => !(occNoKR s)
    let atk1 := (kingPath ++ [kingSq]).any fun s =>
      isAttacked b b.turn.other (occToggle (occOf b) [kingSq]) s
    let atk2 := isAttacked b b.turn.other
      (occToggle (occOf b) [kingSq, rookSq, rookTo]) kingTo
    if emptyOk && !atk1 && !atk2 then some (fromChess960 b kingSq rookSq) else none

/-- Membership of a pawn move in `generate_pseudo_legal_moves` restricted to
its origin and target (captures, pushes, promotions, en passant). -/
def pawnMoveMember (b : Board) (m : PyMove) : Bool :=
  let c := b.turn
  let dir : Int := if c == .white then 1 else -1
  let lastRk : Bool := rankOf m.toSq == (if c == .white then 7 else 0)
  let promoOk : Bool :=
    if lastRk then
      m.promo == some QUEEN || m.promo == some ROOK ||
      m.promo == some BISHOP || m.promo == some KNIGHT
    else m.promo == none
  let isCapture := pawnAttackHits c m.fromSq m.toSq && hasColor b c.other m.toSq
  let singlePush := shift m.fromSq 0 dir == some m.toSq && (b.pieceAt m.toSq).isNone
  let doublePush :=
    rankOf m.fromSq == (if c == .white then 1 else 6) &&
    shift m.fromSq 0 (2 * dir) == some m.toSq &&
    (match shift m.fromSq 0 dir with
     | some mid => (b.pieceAt mid).isNone
     | none => false) &&
    (b.pieceAt m.toSq).isNone
  let ep :=
    match b.epSquare with
    | some e =>
        m.toSq == e && m.promo == none && (b.pieceAt e).isNone &&
        pawnAttackHits c.other e m.fromSq &&
        rankOf m.fromSq == (if c == .white then 4 else 3)
    | none => false
  (isCapture && promoOk) || (singlePush && promoOk) ||
    (doublePush && m.promo == none) || ep

/-- `Board.is_pseudo_legal`. -/
def isPseudoLegal (b : Board) (m : PyMove) : Bool :=
  if m.isNull then false
  else
    match b.pieceAt m.fromSq with
    | none => false
    | some p =>
      if p.color != b.turn then false
      else if m.promo.isSome &&
          (p.pt != PAWN
            || (b.turn == .white && rankOf m.toSq != 7)
            || (b.turn == .black && rankOf m.toSq != 0)) then false
      else if p.pt == KING && (castlingGen b).contains (fromChess960 b m.fromSq m.toSq) then
        true
      else if hasColor b b.turn m.toSq then false
      else if p.pt == PAWN then pawnMoveMember b m
      else pieceAttacks (occOf b) p.pt p.color m.fromSq m.toSq

def setAt (f : Nat → Option Piece) (sq : Nat) (v : Option Piece) : Nat → Option Piece :=
  fun s => if s == sq then v else f s

/-- `Board.push` (standard chess): applies a move without legality checks,
updating placement, rights, en-passant square and counters.  When the origin
square is empty (where the library's `push` would fail its assertion) only
the side to move flips; call sites that can reach that case model the
exception explicitly. -/
def pushB (b0 : Board) (mIn : PyMove) : Board :=
  let m := toChess960 b0 mIn
  let epOld := b0.epSquare
  let b1 : Board := { b0 with
    cwK := cleanCwK b0, cwQ := cleanCwQ b0
    cbK := cleanCbK b0, cbQ := cleanCbQ b0
    epSquare := none
    halfmove := b0.halfmove + 1
    fullmove := b0.fullmove + (if b0.turn == .black then 1 else 0) }
  if m.isNull then { b1 with turn := b1.turn.other }
  else
    let zeroTouched : List Nat := if m.fromSq == m.toSq then [] else [m.fromSq, m.toSq]
    let zero := zeroTouched.any fun s => hasPt b1 PAWN s || hasColor b1 b1.turn.other s
    let b2 := if zero then { b1 with halfmove := 0 } else b1
    match b2.pieceAt m.fromSq with
    | none => { b2 with turn := b2.turn.other }
    | some p =>
      let place1 := setAt b2.pieceAt m.fromSq none
      let captured := place1 m.toSq
      let touched : List Nat := [m.fromSq, m.toSq]
      let b3 := { b2 with
        cwQ := b2.cwQ && !(touched.contains 0)
        cwK := b2.cwK && !(touched.contains 7)
        cbQ := b2.cbQ && !(touched.contains 56)
        cbK := b2.cbK && !(touched.contains 63) }
      let b4 :=
        if p.pt == KING then
          if b3.turn == .white then { b3 with cwK := false, cwQ := false }
          else { b3 with cbK := false, cbQ := false }
        else b3
      let diff : Int := (m.toSq : Int) - (m.fromSq : Int)
      let step :=
        if p.pt == PAWN then
          if diff == 16 && rankOf m.fromSq == 1 then
            ({ b4 with epSquare := some (m.fromSq + 8) }, place1)
          else if diff == -16 && rankOf m.fromSq == 6 then
            ({ b4 with epSquare := some (m.fromSq - 8) }, place1)
          else if some m.toSq == epOld && (diff.natAbs == 7 || diff.natAbs == 9) &&
              captured == none then
            let capSq : Nat := if b4.turn == .white then m.toSq - 8 else m.toSq + 8
            (b4, setAt place1 capSq none)
          else (b4, place1)
        else (b4, place1)
      let b5 := step.1
      let place2 := step.2
      let ptF := match m.promo with
        | some pr => pr
        | none => p.pt
      let isCastle := ptF == KING &&
        (match captured with
         | some q => q.color == b5.turn
         | none => false)
      if isCastle then
        let aSide := fileOf m.toSq < fileOf m.fromSq
        let base : Nat := if b5.turn == .white then 0 else 56
        let kTo := base + (if aSide then 2 else 6)
        let rTo := base + (if aSide then 3 else 5)
        let placeC := setAt place2 m.toSq none
        let placeD := setAt (setAt placeC kTo (some ⟨KING, b5.turn⟩)) rTo
          (some ⟨ROOK, b5.turn⟩)
        { b5 with pieceAt := placeD, turn := b5.turn.other }
      else
        { b5 with pieceAt := setAt place2 m.toSq (some ⟨ptF, b5.turn⟩),
                  turn := b5.turn.other }

def fileChar : Nat → Char
  | 0 => 'a'
  | 1 => 'b'
  | 2 => 'c'
  | 3 => 'd'
  | 4 => 'e'
  | 5 => 'f'
  | 6 => 'g'
  | _ => 'h'

def rankChar : Nat → Char
  | 0 => '1'
  | 1 => '2'
  | 2 => '3'
  | 3 => '4'
  | 4 => '5'
  | 5 => '6'
  | 6 => '7'
  | _ => '8'

def squareName (sq : Nat) : String :=
  String.mk [fileChar (fileOf sq), rankChar (rankOf sq)]

/-- `Move.uci()` for ordinary moves. -/
def uciStr (m : PyMove) : String :=
  squareName m.fromSq ++ squareName m.toSq ++
    (match m.promo with
     | some pr =>
         if pr == QUEEN then "q"
         else if pr == ROOK then "r"
         else if pr == BISHOP then "b"
         else if pr == KNIGHT then "n"
         else if pr == KING then "k"
         else "p"
     | none => "")

def pieceChar (p : Piece) : Char :=
  match p.color with
  | .white =>
      if p.pt == PAWN then 'P'
      else if p.pt == KNIGHT then 'N'
      else if p.pt == BISHOP then 'B'
      else if p.pt == ROOK then 'R'
      else if p.pt == QUEEN then 'Q'
      else 'K'
  | .black =>
      if p.pt == PAWN then 'p'
      else if p.pt == KNIGHT then 'n'
      else if p.pt == BISHOP then 'b'
      else if p.pt == ROOK then 'r'
      else if p.pt == QUEEN then 'q'
      else 'k'

/-- One rank of `board_fen`, runs of empty squares as digits. -/
def fenRank (b : Board) (r : Nat) : String :=
  let step := (List.range 8).foldl
    (fun (acc : String × Nat) f =>
      match b.pieceAt (r * 8 + f) with
      | some p =>
          ((if acc.2 == 0 then acc.1 else acc.1.push (Char.ofNat (48 + acc.2))).push
            (pieceChar p), 0)
      | none => (acc.1, acc.2 + 1))
    ("", 0)
  if step.2 == 0 then step.1 else step.1.push (Char.ofNat (48 + step.2))

def boardFen (b : Board) : String :=
  String.intercalate "/" ((List.range 8).reverse.map (fenRank b))

def castlingStr (b : Board) : String :=
  let s := (if cleanCwK b then "K" else "") ++ (if cleanCwQ b then "Q" else "") ++
    (if cleanCbK b then "k" else "") ++ (if cleanCbQ b then "q" else "")
  if s == "" then "-" else s

/-- `has_legal_en_passant`: some en-passant capture is pseudo-legal and does
not leave the mover's king attacked. -/
def hasLegalEp (b : Board) : Bool :=
  match b.epSquare with
  | none => false
  | some e =>
      (List.range 64).any fun f =>
        (match b.pieceAt f with
         | some p => p.pt == PAWN && p.color == b.turn
         | none => false) &&
        (b.pieceAt e).isNone &&
        pawnAttackHits b.turn.other e f &&
        rankOf f == (if b.turn == .white then 4 else 3) &&
        (let b' := pushB b ⟨f, e, none⟩
         match (List.range 64).find? (fun s => b'.pieceAt s == some ⟨KING, b.turn⟩) with
         | some k => !(isAttacked b' b.turn.other (occOf b') k)
         | none => true)

def epStr (b : Board) : String :=
  match b.epSquare with
  | some e => if hasLegalEp b then squareName e else "-"
  | none => "-"

/-- `Board.fen()` (default arguments). -/
def fen (b : Board) : String :=
  boardFen b ++ " " ++ (if b.turn == .white then "w" else "b") ++ " " ++
    castlingStr b ++ " " ++ epStr b ++ " " ++
    toString b.halfmove ++ " " ++ toString b.fullmove

/-!
## Part 2a: `moveFromFens` (src/utils/moveFromFens.py)

The three ways the Python function fails are modelled explicitly:
`ambiguousDifference` for the `raise` on more than four differing squares,
`indexError` for the out-of-range accesses `differences[0]` /
`differences[1]` in the promotion block, and `noMatchingMove` for the final
`raise Exception("no valid move found")`.
-/

inductive PyErr
  | ambiguousDifference
  | indexError
  | noMatchingMove
deriving DecidableEq, Repr

/-- The list of squares whose occupant differs between the two boards, in
square order (lines 11–15). -/
def differences (before after : Board) : List Nat :=
  (List.range 64).filter fun sq => !(before.pieceAt sq == after.pieceAt sq)

/-- The doubly-nested loop over `differences` (lines 23–28): every ordered
pair of distinct differing squares as a plain move, deduplicated. -/
def pairCandidates (ds : List Nat) : List PyMove :=
  ds.foldl
    (fun acc d =>
      ds.foldl
        (fun acc od =>
          if d != od then
            let mv : PyMove := ⟨d, od, none⟩
            if acc.contains mv then acc else acc ++ [mv]
          else acc)
        acc)
    []

def idx (ds : List Nat) (i : Nat) : Except PyErr Nat :=
  match ds.get? i with
  | some v => Except.ok v
  | none => Except.error PyErr.indexError

/-- Lines 39–43 for one piece-type symbol: append
`Move(differences[0], differences[1], symbol)` when `differences[0]` is
occupied and the reverse when `differences[1]` is occupied; every list
access can raise `IndexError`. -/
def promoAdd (before : Board) (ds : List Nat) (sym : Nat) (acc : List PyMove) :
    Except PyErr (List PyMove) := do
  let d0 ← idx ds 0
  let acc1 ←
    if (before.pieceAt d0).isSome then do
      let d1 ← idx ds 1
      pure (acc ++ [⟨d0, d1, some sym⟩])
    else pure acc
  let d1 ← idx ds 1
  if (before.pieceAt d1).isSome then
    pure (acc1 ++ [⟨d1, d0, some sym⟩])
  else pure acc1

/-- `chess.PIECE_TYPES`. -/
def PIECE_TYPES : List Nat := [1, 2, 3, 4, 5, 6]

/-- The promotion block (lines 31–43): every piece type except the pawn, in
library order pawn, knight, bishop, rook, queen, king. -/
def promoCandidates (before : Board) (ds : List Nat) : Except PyErr (List PyMove) :=
  PIECE_TYPES.foldlM
    (fun acc sym => if sym == PAWN then pure acc else promoAdd before ds sym acc)
    []

/-- Lines 47–55: the first candidate that is pseudo-legal from `before` and
whose pushed board agrees with `after` on `fen()[:-5]`. -/
def findMatch (before after : Board) : List PyMove → Option PyMove
  | [] => none
  | mv :: rest =>
      if isPseudoLegal before mv &&
          ((fen (pushB before mv)).dropRight 5 == (fen after).dropRight 5) then
        some mv
      else findMatch before after rest

/-- `moveFromFens(before, after)`. -/
def moveFromFens (before after : Board) : Except PyErr PyMove := do
  let ds := differences before after
  if ds.length > 4 then throw .ambiguousDifference
  let pairs := pairCandidates ds
  let promos ← promoCandidates before ds
  match findMatch before after (pairs ++ promos) with
  | some mv => pure mv
  | none => throw .noMatchingMove

/-! Concrete positions used by the repository's own test-suite
(src/utils/tests/test_moveFromFen.py), one per move kind. -/

def placeList (l : List (Nat × Piece)) : Nat → Option Piece :=
  fun sq => (l.find? (fun e => e.1 == sq)).map (·.2)

/-- Position after 1.e4 d5 2.Qg4 (black to move), before 2...Bxg4. -/
def boardCapture : Board :=
  { pieceAt := placeList
      [(0, ⟨ROOK, .white⟩), (1, ⟨KNIGHT, .white⟩), (2, ⟨BISHOP, .white⟩),
       (4, ⟨KING, .white⟩), (5, ⟨BISHOP, .white⟩), (6, ⟨KNIGHT, .white⟩),
       (7, ⟨ROOK, .white⟩),
       (8, ⟨PAWN, .white⟩), (9, ⟨PAWN, .white⟩), (10, ⟨PAWN, .white⟩),
       (11, ⟨PAWN, .white⟩), (13, ⟨PAWN, .white⟩), (14, ⟨PAWN, .white⟩),
       (15, ⟨PAWN, .white⟩), (28, ⟨PAWN, .white⟩), (30, ⟨QUEEN, .white⟩),
       (35, ⟨PAWN, .black⟩),
       (48, ⟨PAWN, .black⟩), (49, ⟨PAWN, .black⟩), (50, ⟨PAWN, .black⟩),
       (52, ⟨PAWN, .black⟩), (53, ⟨PAWN, .black⟩), (54, ⟨PAWN, .black⟩),
       (55, ⟨PAWN, .black⟩),
       (56, ⟨ROOK, .black⟩), (57, ⟨KNIGHT, .black⟩), (58, ⟨BISHOP, .black⟩),
       (59, ⟨QUEEN, .black⟩), (60, ⟨KING, .black⟩), (61, ⟨BISHOP, .black⟩),
       (62, ⟨KNIGHT, .black⟩), (63, ⟨ROOK, .black⟩)]
    turn := .black
    cwK := true, cwQ := true, cbK := true, cbQ := true
    epSquare := none
    halfmove := 1
    fullmove := 2 }

/-- `Board("8/3P4/8/6k1/8/8/1K6/8 w - - 0 1")` from `test_a_promotion`. -/
def boardPromo : Board :=
  { pieceAt := placeList
      [(51, ⟨PAWN, .white⟩), (38, ⟨KING, .black⟩), (9, ⟨KING, .white⟩)]
    turn := .white
    cwK := false, cwQ := false, cbK := false, cbQ := false
    epSquare := none
    halfmove := 0
    fullmove := 1 }

/-- Position after 1.d4 e5 2.Bg5 Bb4+ 3.Nc3 h5 4.a4 Nf6 5.Qd3 (black to
move), before 5...O-O — the game of `test_a_king_castle`. -/
def boardCastle : Board :=
  { pieceAt := placeList
      [(0, ⟨ROOK, .white⟩), (4, ⟨KING, .white⟩), (5, ⟨BISHOP, .white⟩),
       (6, ⟨KNIGHT, .white⟩), (7, ⟨ROOK, .white⟩),
       (9, ⟨PAWN, .white⟩), (10, ⟨PAWN, .white⟩), (12, ⟨PAWN, .white⟩),
       (13, ⟨PAWN, .white⟩), (14, ⟨PAWN, .white⟩), (15, ⟨PAWN, .white⟩),
       (18, ⟨KNIGHT, .white⟩), (19, ⟨QUEEN, .white⟩),
       (24, ⟨PAWN, .white⟩), (27, ⟨PAWN, .white⟩), (38, ⟨BISHOP, .white⟩),
       (25, ⟨BISHOP, .black⟩), (36, ⟨PAWN, .black⟩), (39, ⟨PAWN, .black⟩),
       (45, ⟨KNIGHT, .black⟩),
       (48, ⟨PAWN, .black⟩), (49, ⟨PAWN, .black⟩), (50, ⟨PAWN, .black⟩),
       (51, ⟨PAWN, .black⟩), (53, ⟨PAWN, .black⟩), (54, ⟨PAWN, .black⟩),
       (56, ⟨ROOK, .black⟩), (57, ⟨KNIGHT, .black⟩), (58, ⟨BISHOP, .black⟩),
       (59, ⟨QUEEN, .black⟩), (60, ⟨KING, .black⟩), (63, ⟨ROOK, .black⟩)]
    turn := .black
    cwK := true, cwQ := true, cbK := true, cbQ := true
    epSquare := none
    halfmove := 2
    fullmove := 5 }

/-- The same game one ply later (after 5...O-O, white to move), before
6.O-O-O — the position of `test_a_queen_castle`. -/
def boardQCastle : Board := pushB boardCastle ⟨60, 62, none⟩

/-- `Board("rnbqkbnr/pp2p1pp/2p2p2/3pP3/2P5/8/PP1P1PPP/RNBQKBNR w KQkq d6 0 4")`
from `test_a_en_passant`. -/
def boardEp : Board :=
  { pieceAt := placeList
      [(0, ⟨ROOK, .white⟩), (1, ⟨KNIGHT, .white⟩), (2, ⟨BISHOP, .white⟩),
       (3, ⟨QUEEN, .white⟩), (4, ⟨KING, .white⟩), (5, ⟨BISHOP, .white⟩),
       (6, ⟨KNIGHT, .white⟩), (7, ⟨ROOK, .white⟩),
       (8, ⟨PAWN, .white⟩), (9, ⟨PAWN, .white⟩), (11, ⟨PAWN, .white⟩),
       (13, ⟨PAWN, .white⟩), (14, ⟨PAWN, .white⟩), (15, ⟨PAWN, .white⟩),
       (26, ⟨PAWN, .white⟩), (36, ⟨PAWN, .white⟩),
       (35, ⟨PAWN, .black⟩), (42, ⟨PAWN, .black⟩), (45, ⟨PAWN, .black⟩),
       (48, ⟨PAWN, .black⟩), (49, ⟨PAWN, .black⟩), (52, ⟨PAWN, .black⟩),
       (54, ⟨PAWN, .black⟩), (55, ⟨PAWN, .black⟩),
       (56, ⟨ROOK, .black⟩), (57, ⟨KNIGHT, .black⟩), (58, ⟨BISHOP, .black⟩),
       (59, ⟨QUEEN, .black⟩), (60, ⟨KING, .black⟩), (61, ⟨BISHOP, .black⟩),
       (62, ⟨KNIGHT, .black⟩), (63, ⟨ROOK, .black⟩)]
    turn := .white
    cwK := true, cwQ := true, cbK := true, cbQ := true
    epSquare := some 43
    halfmove := 0
    fullmove := 4 }

/-- The promotion-candidate generation as §4.3 of the specification words
it (the code above is to be compared against this): for every ordered pair
of differing squares whose origin holds a pawn and whose destination lies on
the last rank for that pawn's colour, one candidate per non-pawn, non-king
piece type, in the priority order queen, rook, bishop, knight. -/
def specPromoCandidates (before : Board) (ds : List Nat) : List PyMove :=
  ds.foldl
    (fun acc o =>
      ds.foldl
        (fun acc d =>
          if o != d &&
              (match before.pieceAt o with
               | some p =>
                   p.pt == PAWN && rankOf d == (if p.color == .white then 7 else 0)
               | none => false) then
            acc ++ [QUEEN, ROOK, BISHOP, KNIGHT].map fun sym =>
              (⟨o, d, some sym⟩ : PyMove)
          else acc)
        acc)
    []

/-!
## Part 2b: the UCI dispatcher (src/state.py, src/uci_handler.py)

Connector operations are modelled by their outcome: `Except Unit α`, where
`.error ()` stands for the call raising an exception.  Every dispatch
returns the new handler state together with the ordered list of connector
calls made, the protocol lines emitted, the `_transition_to` log, and
whether an exception escaped the handler (to be caught by
`_process_command`).
-/

/-- `str.lower()` for the ASCII command words of the protocol. -/
def lowChar (c : Char) : Char :=
  if 'A' ≤ c ∧ c ≤ 'Z' then Char.ofNat (c.toNat + 32) else c

def pyLower (s : String) : String := String.mk (s.toList.map lowChar)

def pySplitAux : List Char → List Char → List String
  | [], cur => if cur.isEmpty then [] else [String.mk cur.reverse]
  | ch :: rest, cur =>
      if ch == ' ' || ch == '\t' || ch == '\n' || ch == '\r' then
        if cur.isEmpty then pySplitAux rest []
        else String.mk cur.reverse :: pySplitAux rest []
      else pySplitAux rest (ch :: cur)

/-- `str.split()` (split on whitespace runs, empty tokens dropped). -/
def pySplit (s : String) : List String := pySplitAux s.toList []

/-- Result of `Move.from_uci`: an ordinary move, or a crazyhouse drop token
such as `"Q@e4"` — the library encodes a drop as `Move(sq, sq, drop=pt)`;
it is kept as a separate constructor here because the inference engine never
builds drops and `push` treats them by a dedicated early branch. -/
inductive ParsedUci
  | move (m : PyMove)
  | dropMove (pt : Nat) (sq : Nat)
deriving DecidableEq, Repr

/-- `Move.from_uci`: `"0000"` is the null move; `X@sq` (four characters with
`@` second) is a drop; otherwise four or five characters naming two distinct
squares plus an optional promotion letter. -/
def parseUci (s : String) : Option ParsedUci :=
  let sqIx : Char → Char → Option Nat := fun f r =>
    let fi : Option Nat :=
      if f == 'a' then some 0 else if f == 'b' then some 1
      else if f == 'c' then some 2 else if f == 'd' then some 3
      else if f == 'e' then some 4 else if f == 'f' then some 5
      else if f == 'g' then some 6 else if f == 'h' then some 7 else none
    let ri : Option Nat :=
      if '1' ≤ r ∧ r ≤ '8' then some (r.toNat - 49) else none
    fi.bind fun fv => ri.map fun rv => rv * 8 + fv
  let promoIx : Char → Option Nat := fun ch =>
    if ch == 'p' then some PAWN else if ch == 'n' then some KNIGHT
    else if ch == 'b' then some BISHOP else if ch == 'r' then some ROOK
    else if ch == 'q' then some QUEEN else if ch == 'k' then some KING
    else none
  match s.toList with
  | ['0', '0', '0', '0'] => some (.move ⟨0, 0, none⟩)
  | [a, b, c, d] =>
      if b == '@' then
        (promoIx (lowChar a)).bind fun pt =>
          (sqIx c d).map fun sq => .dropMove pt sq
      else
        (sqIx a b).bind fun f => (sqIx c d).bind fun t =>
          if f == t then none else some (.move ⟨f, t, none⟩)
  | [a, b, c, d, e] =>
      (sqIx a b).bind fun f => (sqIx c d).bind fun t =>
        (promoIx e).bind fun pr =>
          if f == t then none else some (.move ⟨f, t, some pr⟩)
  | _ => none

/-- `Board.push` on a crazyhouse drop `Move(sq, sq, drop=pt)`: as for every
push the rights are cleaned, the en-passant square cleared and the clocks
advanced, then the drop branch places the piece and flips the turn,
returning before the half-move zeroing and all later steps. -/
def pushDrop (b0 : Board) (pt sq : Nat) : Board :=
  { pieceAt := setAt b0.pieceAt sq (some ⟨pt, b0.turn⟩)
    turn := b0.turn.other
    cwK := cleanCwK b0, cwQ := cleanCwQ b0
    cbK := cleanCbK b0, cbQ := cleanCbQ b0
    epSquare := none
    halfmove := b0.halfmove + 1
    fullmove := b0.fullmove + (if b0.turn == .black then 1 else 0) }

def charPiece (ch : Char) : Option Piece :=
  if ch == 'P' then some ⟨PAWN, .white⟩ else if ch == 'N' then some ⟨KNIGHT, .white⟩
  else if ch == 'B' then some ⟨BISHOP, .white⟩ else if ch == 'R' then some ⟨ROOK, .white⟩
  else if ch == 'Q' then some ⟨QUEEN, .white⟩ else if ch == 'K' then some ⟨KING, .white⟩
  else if ch == 'p' then some ⟨PAWN, .black⟩ else if ch == 'n' then some ⟨KNIGHT, .black⟩
  else if ch == 'b' then some ⟨BISHOP, .black⟩ else if ch == 'r' then some ⟨ROOK, .black⟩
  else if ch == 'q' then some ⟨QUEEN, .black⟩ else if ch == 'k' then some ⟨KING, .black⟩
  else none

/-- One row of `_set_board_fen`: digits 1–8 (never two in a row), piece
letters, and `~` promoted-piece markers directly after a piece (the marker
is validated but the promoted bitboard itself is not modelled — it only
affects rights cleaning for marked rooks and kings, which no position the
dispatcher tracks contains). -/
def parseFenRow : List Char → Bool → Bool → List (Option Piece) →
    Option (List (Option Piece))
  | [], _, _, cells => some cells
  | ch :: rest, pd, pp, cells =>
      if '1' ≤ ch ∧ ch ≤ '8' then
        if pd then none
        else parseFenRow rest true false (cells ++ List.replicate (ch.toNat - 48) none)
      else if ch == '~' then
        if pp then parseFenRow rest false false cells else none
      else
        match charPiece ch with
        | some p => parseFenRow rest false true (cells ++ [some p])
        | none => none

/-- `_set_board_fen` (the board token of a split FEN contains no spaces, so
the `strip` and embedded-space checks are vacuous): exactly eight rows, each
summing to eight columns. -/
def parseBoardPart (s : String) : Option (Nat → Option Piece) :=
  let rows := s.splitOn "/"
  if rows.length == 8 then
    (rows.reverse.foldl
      (fun acc r => acc.bind fun l =>
        (parseFenRow r.toList false false []).bind fun cells =>
          if cells.length == 8 then some (l ++ cells) else none)
      (some [])).map
      fun cells => fun sq => cells.getD sq none
  else none

def noAdjacentUnderscores : List Char → Bool
  | [] => true
  | [_] => true
  | a :: b :: t => !(a == '_' && b == '_') && noAdjacentUnderscores (b :: t)

def pyIntDigits (l : List Char) : Option Nat :=
  if l.isEmpty || l.head? == some '_' || l.getLast? == some '_' ||
      !(l.all fun ch => ch.isDigit || ch == '_') || !noAdjacentUnderscores l then
    none
  else
    some (l.foldl (fun acc ch => if ch == '_' then acc else acc * 10 + (ch.toNat - 48)) 0)

/-- Python `int(...)` on a whitespace-free token: optional sign, then digits
with single underscores strictly between digits. -/
def pyInt (s : String) : Option Int :=
  match s.toList with
  | '+' :: rest => (pyIntDigits rest).map fun n => (n : Int)
  | '-' :: rest => (pyIntDigits rest).map fun n => -(n : Int)
  | l => (pyIntDigits l).map fun n => (n : Int)

def upperCastlingChar (ch : Char) : Bool :=
  ch == 'K' || ch == 'Q' || ('A' ≤ ch ∧ ch ≤ 'H')

def lowerCastlingChar (ch : Char) : Bool :=
  ch == 'k' || ch == 'q' || ('a' ≤ ch ∧ ch ≤ 'h')

/-- `FEN_CASTLING_REGEX`: `-`, or up to two upper-case castling letters
(K, Q or a file) followed by up to two lower-case ones. -/
def castlingRegexOk (s : String) : Bool :=
  s == "-" ||
    (let l := s.toList
     let up := l.takeWhile upperCastlingChar
     up.length ≤ 2 && (l.drop up.length).length ≤ 2 &&
       (l.drop up.length).all lowerCastlingChar)

def backrankRooks (place : Nat → Option Piece) (c : PColor) : List Nat :=
  let base : Nat := if c == .white then 0 else 56
  ((List.range 8).filter fun f => place (base + f) == some ⟨ROOK, c⟩).map (base + ·)

/-- `Board.king`: the highest square holding that colour's king. -/
def kingSquare (place : Nat → Option Piece) (c : PColor) : Option Nat :=
  ((List.range 64).filter fun sq => place sq == some ⟨KING, c⟩).getLast?

/-- One flag of `_set_castling_fen`'s loop, projected to the two corner
squares of that colour's back rank: `q` selects the leftmost back-rank rook
when it is left of the king (setting its square) and the a-file corner
otherwise, `k` symmetrically with the rightmost rook and the h-file corner,
and a file letter selects that file's back-rank square directly.  Bits the
library may place on non-corner squares are invisible to standard-mode
`clean_castling_rights` and are not stored. -/
def applyCastlingFlag (place : Nat → Option Piece)
    (fl : Bool × Bool × Bool × Bool) (ch : Char) : Bool × Bool × Bool × Bool :=
  let white := ch.isUpper
  let c : PColor := if white then .white else .black
  let base : Nat := if white then 0 else 56
  let low := lowChar ch
  let rooks := backrankRooks place c
  let king? := kingSquare place c
  let setQ : Bool :=
    if low == 'q' then
      match king?, rooks.head? with
      | some k, some r => if r < k then r == base else true
      | some _, none => false
      | none, _ => true
    else if low == 'k' then false
    else low == 'a'
  let setK : Bool :=
    if low == 'k' then
      match king?, rooks.getLast? with
      | some k, some r => if k < r then r == base + 7 else true
      | some _, none => true
      | none, _ => true
    else if low == 'q' then false
    else low == 'h'
  if white then (fl.1 || setK, fl.2.1 || setQ, fl.2.2.1, fl.2.2.2)
  else (fl.1, fl.2.1, fl.2.2.1 || setK, fl.2.2.2 || setQ)

/-- `chess.Board(fen)` — `set_fen`, with its defaults for missing trailing
fields; `.error ()` is exactly its `ValueError`: a bad board part, a turn
other than `w`/`b`, a castling part outside `FEN_CASTLING_REGEX`, a bad
en-passant square, unparseable or negative move counters, or more than six
fields. -/
def parseFen (s : String) : Except Unit Board :=
  let parts := pySplit s
  match parts with
  | [] => .error ()
  | bp :: restP =>
      if parts.length > 6 then .error ()
      else
        match parseBoardPart bp with
        | none => .error ()
        | some place =>
            let turnS := restP.getD 0 "w"
            let castS := restP.getD 1 "-"
            let epS := restP.getD 2 "-"
            let hmS := restP.getD 3 "0"
            let fmS := restP.getD 4 "1"
            let turn? : Option PColor :=
              if turnS == "w" then some .white
              else if turnS == "b" then some .black else none
            let ep? : Option (Option Nat) :=
              if epS == "-" then some none
              else match epS.toList with
                | [f, r] =>
                    if 'a' ≤ f ∧ f ≤ 'h' ∧ '1' ≤ r ∧ r ≤ '8' then
                      some (some ((r.toNat - 49) * 8 + (f.toNat - 97)))
                    else none
                | _ => none
            match turn?, ep?, pyInt hmS, pyInt fmS with
            | some t, some ep, some hm, some fm =>
                if !(castlingRegexOk castS) then .error ()
                else if hm < 0 then .error ()
                else if fm < 0 then .error ()
                else
                  let fl :=
                    if castS == "-" then (false, false, false, false)
                    else castS.toList.foldl (applyCastlingFlag place)
                      (false, false, false, false)
                  .ok { pieceAt := place, turn := t,
                        cwK := fl.1, cwQ := fl.2.1
                        cbK := fl.2.2.1, cbQ := fl.2.2.2
                        epSquare := ep, halfmove := hm.toNat
                        fullmove := max fm.toNat 1 }
            | _, _, _, _ => .error ()

/-- The states of `state.GameState`. -/
inductive GameState
  | initializing
  | gameReady
  | configuring
  | computing
  | pondering
  | observing
  | error
  | terminating
deriving DecidableEq, Repr

/-- `UCIHandler.VALID_COMMANDS`. -/
def validCommands : GameState → List String
  | .initializing => []
  | .gameReady => ["uci", "isready", "ucinewgame", "position", "setoption", "quit"]
  | .configuring => ["isready", "stop"]
  | .computing => ["stop", "isready", "go", "quit"]
  | .pondering => ["ponderhit", "stop", "isready", "quit"]
  | .observing => ["position", "isready", "stop", "go", "quit"]
  | .error => ["isready", "quit"]
  | .terminating => []

def isCmdValid (s : GameState) (cmd : String) : Bool :=
  (validCommands s).contains cmd

structure OptionDef where
  oty : Option String := none
  odefault : Option String := none
  omin : Option String := none
  omax : Option String := none

/-- A `GameConnector`, modelled by the outcome of each operation the
dispatcher can invoke; `.error ()` stands for the call raising. -/
structure Connector where
  cname : String := "conn"
  cauthor : String := "author"
  opts : List (String × OptionDef) := []
  engColor : PColor := .white
  initOp : Except Unit Bool := .ok true
  isReadyOp : Except Unit Bool := .ok true
  newGameOp : Except Unit Bool := .ok true
  setupPosOp : Except Unit Bool := .ok true
  waitMoveOp : Except Unit (Option PyMove) := .ok none
  stopCalcOp : Except Unit Bool := .ok true
  stopPonderOp : Except Unit (Option PyMove) := .ok none
  supportsPonderOp : Except Unit Bool := .ok false
  recoveryOp : Except Unit Bool := .ok false
  setOptionOp : Except Unit Bool := .ok false
  shutdownOp : Except Unit Unit := .ok ()

inductive CCall
  | initC
  | isReadyC
  | newGameC
  | setupPosC
  | waitMoveC
  | stopCalcC
  | stopPonderC
  | supportsPonderC
  | recoveryC
  | setOptionC
  | shutdownC
  | getOptionsC
deriving DecidableEq, Repr

/-- The dispatcher's mutable state: current phase, tracked position and the
main-loop flag. -/
structure Handler where
  state : GameState
  position : Board
  running : Bool

/-- Result of handling one command: new handler state, connector calls in
order, emitted lines, `_transition_to` log, and whether an exception escaped
the handler. -/
structure HRes where
  h : Handler
  calls : List CCall
  outs : List String
  trans : List GameState
  thrown : Bool

def optionLine (nd : String × OptionDef) : String :=
  "option name " ++ nd.1 ++
    (match nd.2.oty with
     | some t => " type " ++ t
     | none => "") ++
    (match nd.2.odefault with
     | some v => " default " ++ v
     | none => "") ++
    (match nd.2.omin with
     | some v => " min " ++ v
     | none => "") ++
    (match nd.2.omax with
     | some v => " max " ++ v
     | none => "")

/-- `_handle_uci`. -/
def handleUci (c : Connector) (h : Handler) : HRes :=
  ⟨h, [.getOptionsC],
    ["id name " ++ c.cname, "id author " ++ c.cauthor] ++
      c.opts.map optionLine ++ ["uciok"],
    [], false⟩

/-- `_initialize` (note: it catches exceptions from `initialize` itself). -/
def initializeStep (c : Connector) (h : Handler) :
    Handler × List CCall × List GameState :=
  match c.initOp with
  | .ok true => ({ h with state := .gameReady }, [.initC], [.gameReady])
  | .ok false => ({ h with state := .error }, [.initC], [.error])
  | .error _ => ({ h with state := .error }, [.initC], [.error])

/-- `_handle_isready`. -/
def handleIsready (c : Connector) (h : Handler) : HRes :=
  let recStep : Option (Handler × List CCall × List GameState) :=
    if h.state == .error then
      match c.recoveryOp with
      | .error _ => none
      | .ok true =>
          let h1 := { h with state := .initializing }
          let (h2, cs, ts) := initializeStep c h1
          some (h2, .recoveryC :: cs, .initializing :: ts)
      | .ok false => some (h, [.recoveryC], [])
    else some (h, [], [])
  match recStep with
  | none => ⟨h, [.recoveryC], [], [], true⟩
  | some (h1, cs1, ts1) =>
      match c.isReadyOp with
      | .error _ => ⟨h1, cs1 ++ [.isReadyC], [], ts1, true⟩
      | .ok true => ⟨h1, cs1 ++ [.isReadyC], ["readyok"], ts1, false⟩
      | .ok false =>
          match c.initOp with
          | .error _ => ⟨h1, cs1 ++ [.isReadyC, .initC], [], ts1, true⟩
          | .ok true =>
              ⟨{ h1 with state := .gameReady }, cs1 ++ [.isReadyC, .initC],
                ["readyok"], ts1 ++ [.gameReady], false⟩
          | .ok false =>
              ⟨{ h1 with state := .error }, cs1 ++ [.isReadyC, .initC], [],
                ts1 ++ [.error], false⟩

/-- `_handle_ucinewgame`. -/
def handleUcinewgame (c : Connector) (h : Handler) : HRes :=
  let h1 := { h with state := .configuring }
  match c.newGameOp with
  | .error _ => ⟨h1, [.newGameC], [], [.configuring], true⟩
  | .ok true =>
      let h2 := { h1 with position := startBoard }
      if c.engColor == .white then
        ⟨{ h2 with state := .computing }, [.newGameC], [],
          [.configuring, .computing], false⟩
      else
        ⟨{ h2 with state := .observing }, [.newGameC], [],
          [.configuring, .observing], false⟩
  | .ok false =>
      ⟨{ h1 with state := .error }, [.newGameC], [], [.configuring, .error], false⟩

inductive ApplyExit
  | allApplied
  | parseFail
  | assertFail
deriving DecidableEq, Repr

/-- The `for move_str in args[1:]` loop of `_handle_position`: each token is
parsed (`Move.from_uci`, whose `ValueError` is caught and stops the loop)
and pushed (whose `AssertionError` on an empty origin square of an ordinary
non-null move propagates; drop and null pushes never reach that assertion
and the loop continues). -/
def applyMoveTokens (pos : Board) : List String → Board × ApplyExit
  | [] => (pos, .allApplied)
  | t :: rest =>
      match parseUci t with
      | none => (pos, .parseFail)
      | some (.dropMove pt sq) => applyMoveTokens (pushDrop pos pt sq) rest
      | some (.move mv) =>
          if !mv.isNull && (pos.pieceAt mv.fromSq).isNone then (pos, .assertFail)
          else applyMoveTokens (pushB pos mv) rest

def afterBase (h : Handler) (base : Board) (args : List String) : HRes :=
  match args with
  | "moves" :: toks =>
      let step := applyMoveTokens base toks
      match step.2 with
      | .allApplied => ⟨{ h with position := step.1 }, [], [], [], false⟩
      | .parseFail => ⟨{ h with position := step.1 }, [], [], [], false⟩
      | .assertFail => ⟨{ h with position := step.1 }, [], [], [], true⟩
  | _ => ⟨{ h with position := base }, [], [], [], false⟩

/-- `_handle_position`. -/
def handlePosition (h : Handler) (args : List String) : HRes :=
  match args with
  | [] => ⟨h, [], [], [], false⟩
  | a0 :: rest =>
      if a0 == "startpos" then afterBase h startBoard rest
      else if a0 == "fen" then
        let full := a0 :: rest
        let sliced : List String × List String :=
          match full.indexOf? "moves" with
          | some i =>
              if i == 0 then (full.drop 1, [])
              else ((full.take i).drop 1, full.drop i)
          | none => (full.drop 1, [])
        match parseFen (String.intercalate " " sliced.1) with
        | .error _ => ⟨h, [], [], [], true⟩
        | .ok b => afterBase h b sliced.2
      else ⟨h, [], [], [], false⟩

/-- `_handle_go`. -/
def handleGo (c : Connector) (h : Handler) (args : List String) : HRes :=
  let ponder := args.contains "ponder"
  let h1 := { h with state := .computing }
  match c.setupPosOp with
  | .error _ => ⟨h1, [.setupPosC], [], [.computing], true⟩
  | .ok false =>
      ⟨{ h1 with state := .error }, [.setupPosC], [], [.computing, .error], false⟩
  | .ok true =>
      match c.waitMoveOp with
      | .error _ => ⟨h1, [.setupPosC, .waitMoveC], [], [.computing], true⟩
      | .ok (some mv) =>
          let best := "bestmove " ++ uciStr mv
          let sp : Option (List CCall) :=
            if ponder then
              match c.supportsPonderOp with
              | .error _ => none
              | .ok _ => some [.supportsPonderC]
            else some []
          match sp with
          | none =>
              ⟨h1, [.setupPosC, .waitMoveC, .supportsPonderC], [], [.computing], true⟩
          | some extra =>
              if !mv.isNull && (h1.position.pieceAt mv.fromSq).isNone then
                ⟨h1, [.setupPosC, .waitMoveC] ++ extra, [best], [.computing], true⟩
              else
                ⟨{ h1 with position := pushB h1.position mv, state := .observing },
                  [.setupPosC, .waitMoveC] ++ extra, [best],
                  [.computing, .observing], false⟩
      | .ok none =>
          if h1.state == .computing then
            ⟨{ h1 with state := .observing }, [.setupPosC, .waitMoveC], [],
              [.computing, .observing], false⟩
          else ⟨h1, [.setupPosC, .waitMoveC], [], [.computing], false⟩

/-- `_handle_stop`. -/
def handleStop (c : Connector) (h : Handler) : HRes :=
  if h.state == .computing then
    match c.stopCalcOp with
    | .error _ => ⟨h, [.stopCalcC], [], [], true⟩
    | .ok _ => ⟨{ h with state := .observing }, [.stopCalcC], [], [.observing], false⟩
  else if h.state == .pondering then
    match c.stopPonderOp with
    | .error _ => ⟨h, [.stopPonderC], [], [], true⟩
    | .ok (some r) =>
        ⟨{ h with state := .observing }, [.stopPonderC],
          ["bestmove " ++ uciStr r], [.observing], false⟩
    | .ok none =>
        ⟨{ h with state := .observing }, [.stopPonderC], [], [.observing], false⟩
  else if h.state == .configuring then
    ⟨{ h with state := .gameReady }, [], [], [.gameReady], false⟩
  else ⟨h, [], [], [], false⟩

/-- `_handle_ponderhit`. -/
def handlePonderhit (h : Handler) : HRes :=
  if h.state == .pondering then
    ⟨{ h with state := .computing }, [], [], [.computing], false⟩
  else ⟨h, [], [], [], false⟩

/-- `_handle_setoption`. -/
def handleSetoption (c : Connector) (h : Handler) (args : List String) : HRes :=
  if args.length < 2 || args.getD 0 "" != "name" then ⟨h, [], [], [], false⟩
  else
    match c.setOptionOp with
    | .error _ => ⟨h, [.setOptionC], [], [], true⟩
    | .ok _ => ⟨h, [.setOptionC], [], [], false⟩

/-- `_handle_quit`. -/
def handleQuit (c : Connector) (h : Handler) : HRes :=
  let h1 := { h with state := .terminating }
  match c.shutdownOp with
  | .error _ => ⟨h1, [.shutdownC], [], [.terminating], true⟩
  | .ok _ => ⟨{ h1 with running := false }, [.shutdownC], [], [.terminating], false⟩

inductive CmdName
  | uci
  | isready
  | ucinewgame
  | position
  | go
  | stop
  | ponderhit
  | setoption
  | quit
deriving DecidableEq, Repr

/-- The `_command_handlers` table. -/
def handlerFor (cmd : String) : Option CmdName :=
  if cmd == "uci" then some .uci
  else if cmd == "isready" then some .isready
  else if cmd == "ucinewgame" then some .ucinewgame
  else if cmd == "position" then some .position
  else if cmd == "go" then some .go
  else if cmd == "stop" then some .stop
  else if cmd == "ponderhit" then some .ponderhit
  else if cmd == "setoption" then some .setoption
  else if cmd == "quit" then some .quit
  else none

def runHandler (c : Connector) (h : Handler) (cn : CmdName) (args : List String) : HRes :=
  match cn with
  | .uci => handleUci c h
  | .isready => handleIsready c h
  | .ucinewgame => handleUcinewgame c h
  | .position => handlePosition h args
  | .go => handleGo c h args
  | .stop => handleStop c h
  | .ponderhit => handlePonderhit h
  | .setoption => handleSetoption c h args
  | .quit => handleQuit c h

/-- The `try: handler(args) except: transition to ERROR` step of
`_process_command`. -/
def dispatchWrap (c : Connector) (h : Handler) (cn : CmdName) (args : List String) : HRes :=
  let r := runHandler c h cn args
  if r.thrown then
    ⟨{ r.h with state := .error }, r.calls, r.outs, r.trans ++ [.error], false⟩
  else r

/-- `_process_command` on an already split line: invalid commands are
dropped only in INITIALIZING and TERMINATING, otherwise the handler is still
invoked; an exception from the handler forces the ERROR state. -/
def processParts (c : Connector) (h : Handler) (parts : List String) : HRes :=
  match parts with
  | [] => ⟨h, [], [], [], false⟩
  | cmd0 :: args =>
      let command := pyLower cmd0
      if !(isCmdValid h.state command) &&
          (h.state == .initializing || h.state == .terminating) then
        ⟨h, [], [], [], false⟩
      else
        match handlerFor command with
        | none => ⟨h, [], [], [], false⟩
        | some cn => dispatchWrap c h cn args

def processCommand (c : Connector) (h : Handler) (line : String) : HRes :=
  processParts c h (pySplit line)

structure RRes where
  h : Handler
  calls : List CCall
  outs : List String

/-- The read-dispatch loop of `run` (list exhaustion models end-of-input). -/
def runLoop (c : Connector) (h : Handler) : List String → RRes
  | [] => ⟨h, [], []⟩
  | l :: rest =>
      if h.running then
        let s := l.trim
        if s == "" then runLoop c h rest
        else
          let r := processParts c h (pySplit s)
          let k := runLoop c r.h rest
          ⟨k.h, r.calls ++ k.calls, r.outs ++ k.outs⟩
      else ⟨h, [], []⟩

/-- `UCIHandler.run`: initialize, process the input lines, and shut down via
`_handle_quit` if the loop ended in any state other than TERMINATING. -/
def run (c : Connector) (lines : List String) : HRes :=
  let h0 : Handler := ⟨.initializing, startBoard, true⟩
  let (h1, cs0, ts0) := initializeStep c h0
  let lr := runLoop c h1 lines
  if lr.h.state != .terminating then
    let q := handleQuit c lr.h
    ⟨q.h, cs0 ++ lr.calls ++ q.calls, lr.outs ++ q.outs, ts0 ++ q.trans, q.thrown⟩
  else ⟨lr.h, cs0 ++ lr.calls, lr.outs, ts0, false⟩

/-!
## Theorems

Claims C1, C2, C7, C10 concern the move-inference engine; C3, C4, C5, C6,
C8, C9 concern the dispatcher.
-/

/-- C2: for every pair of board snapshots whose piece placement differs on
more than 4 squares, `moveFromFens` fails with the AmbiguousDifference
failure (the `raise` on line 18) and never returns a move. -/
theorem moveFromFens_ambiguousDifference (before after : Board)
    (h : (differences before after).length > 4) :
    moveFromFens before after = .error .ambiguousDifference := by
  simp [moveFromFens, h, Bind.bind, Except.bind]

theorem moveFromFens_ambiguousDifference_witness :
    (differences startBoard boardPromo).length > 4 ∧
    moveFromFens startBoard boardPromo = .error .ambiguousDifference :=
  ⟨by decide, moveFromFens_ambiguousDifference _ _ (by decide)⟩

/-- C10: for every pair of board snapshots whose piece placements differ on
fewer than two squares (in particular two placement-equal boards),
`moveFromFens` raises an out-of-range access into the difference list
(`differences[0]` / `differences[1]` in the promotion block) rather than
returning a move or the tagged NoMatchingMove failure. -/
theorem moveFromFens_indexError_small_diff (before after : Board)
    (h : (differences before after).length < 2) :
    moveFromFens before after = .error .indexError := by
  unfold moveFromFens
  rcases hds : differences before after with _ | ⟨d, _ | ⟨e, tl⟩⟩
  · rfl
  · by_cases hp : (before.pieceAt d).isSome <;>
      simp [promoCandidates, promoAdd, idx, List.foldlM, Bind.bind, Except.bind,
        Pure.pure, Except.pure, hp, PAWN]
  · rw [hds] at h
    simp at h
    omega

theorem moveFromFens_indexError_small_diff_witness :
    (differences startBoard startBoard).length < 2 ∧
    moveFromFens startBoard startBoard = .error .indexError :=
  ⟨by decide, moveFromFens_indexError_small_diff _ _ (by decide)⟩

/-- C1 counterexample: in the queen-castle position of the repository's own
test game (after 1.d4 e5 2.Bg5 Bb4+ 3.Nc3 h5 4.a4 Nf6 5.Qd3 O-O), applying
the legal queenside castle `m = e1c1` and inferring the move back yields
`e1a1`, not `m`: the candidate `e1a1` (king to rook square, which the rules
collaborator accepts as the same castling) is tried first and matches. -/
theorem moveFromFens_queenside_counterexample :
    moveFromFens boardQCastle (pushB boardQCastle ⟨4, 2, none⟩) =
      .ok ⟨4, 0, none⟩ ∧
    (⟨4, 0, none⟩ : PyMove) ≠ ⟨4, 2, none⟩ :=
  ⟨rfl, by decide⟩

/-- C1 (amended): round-trip inference returns exactly the applied move for
a quiet move (the pawn kickstart e2e4 from the start position), a capture
(Bxg4 after 1.e4 d5 2.Qg4), promotion to each of queen, rook, bishop and
knight (d7d8 in `8/3P4/8/6k1/8/8/1K6/8 w - - 0 1`), the kingside castle
(e8g8 in the test game) and en passant (e5d6 in the test FEN); for the
queenside castle it returns the king-to-rook-square encoding e1a1 — which
pushes to the identical position — instead of e1c1, exactly as the
repository's test `test_a_queen_castle` expects. -/
theorem moveFromFens_roundtrip_per_kind :
    moveFromFens startBoard (pushB startBoard ⟨12, 28, none⟩) =
      .ok ⟨12, 28, none⟩ ∧
    moveFromFens boardCapture (pushB boardCapture ⟨58, 30, none⟩) =
      .ok ⟨58, 30, none⟩ ∧
    moveFromFens boardPromo (pushB boardPromo ⟨51, 59, some QUEEN⟩) =
      .ok ⟨51, 59, some QUEEN⟩ ∧
    moveFromFens boardPromo (pushB boardPromo ⟨51, 59, some ROOK⟩) =
      .ok ⟨51, 59, some ROOK⟩ ∧
    moveFromFens boardPromo (pushB boardPromo ⟨51, 59, some BISHOP⟩) =
      .ok ⟨51, 59, some BISHOP⟩ ∧
    moveFromFens boardPromo (pushB boardPromo ⟨51, 59, some KNIGHT⟩) =
      .ok ⟨51, 59, some KNIGHT⟩ ∧
    moveFromFens boardCastle (pushB boardCastle ⟨60, 62, none⟩) =
      .ok ⟨60, 62, none⟩ ∧
    moveFromFens boardEp (pushB boardEp ⟨36, 43, none⟩) =
      .ok ⟨36, 43, none⟩ ∧
    moveFromFens boardQCastle (pushB boardQCastle ⟨4, 2, none⟩) =
      .ok ⟨4, 0, none⟩ ∧
    fen (pushB boardQCastle ⟨4, 0, none⟩) = fen (pushB boardQCastle ⟨4, 2, none⟩) :=
  ⟨rfl, rfl, rfl, rfl, rfl, rfl, rfl, rfl, rfl, rfl⟩

/-- C7 counterexample: after the quiet move e2e4 from the start position
the difference list is `[12, 28]`; the specification's promotion-candidate
rule produces no candidates (e4 is not a last-rank square), but the code
produces five — origin e2 merely has to be occupied, the destination rank is
never checked, the priority order is knight, bishop, rook, queen (not queen
first) and promotion to king is included. -/
theorem promoCandidates_spec_counterexample :
    differences startBoard (pushB startBoard ⟨12, 28, none⟩) = [12, 28] ∧
    promoCandidates startBoard [12, 28] =
      .ok [⟨12, 28, some KNIGHT⟩, ⟨12, 28, some BISHOP⟩, ⟨12, 28, some ROOK⟩,
        ⟨12, 28, some QUEEN⟩, ⟨12, 28, some KING⟩] ∧
    specPromoCandidates startBoard [12, 28] = [] :=
  ⟨by decide, rfl, by decide⟩

/-- C7 (amended): promotion candidates are generated only from the first
two squares of the difference list, for each piece type except the pawn in
the order knight, bishop, rook, queen, king; the forward candidate is added
whenever `differences[0]` is occupied in the before-position and the reverse
one whenever `differences[1]` is occupied, with no pawn or last-rank
condition. -/
theorem promoCandidates_closed_form (before : Board) (d0 d1 : Nat)
    (rest : List Nat) :
    promoCandidates before (d0 :: d1 :: rest) =
      .ok (([KNIGHT, BISHOP, ROOK, QUEEN, KING]).foldl
        (fun acc sym =>
          acc ++ (if (before.pieceAt d0).isSome then [⟨d0, d1, some sym⟩] else []) ++
            (if (before.pieceAt d1).isSome then [⟨d1, d0, some sym⟩] else []))
        []) := by
  by_cases h0 : (before.pieceAt d0).isSome <;>
    by_cases h1 : (before.pieceAt d1).isSome <;>
      simp [promoCandidates, promoAdd, idx, List.foldlM, Bind.bind, Except.bind,
        Pure.pure, Except.pure, h0, h1, PAWN, KNIGHT, BISHOP, ROOK, QUEEN, KING]

/-! Shared dispatcher lemmas (used by several claims below). -/

theorem processParts_drop_state (c : Connector) (h : Handler) (cmd : String)
    (args : List String)
    (hs : h.state = .initializing ∨ h.state = .terminating) :
    processParts c h (cmd :: args) = ⟨h, [], [], [], false⟩ := by
  rcases hs with hs | hs <;>
    simp [processParts, isCmdValid, validCommands, hs]

theorem processParts_unknown (c : Connector) (h : Handler) (cmd : String)
    (args : List String) (hf : handlerFor (pyLower cmd) = none) :
    processParts c h (cmd :: args) = ⟨h, [], [], [], false⟩ := by
  by_cases hg : (!(isCmdValid h.state (pyLower cmd)) &&
      (h.state == .initializing || h.state == .terminating)) = true <;>
    simp [processParts, hf, hg]

theorem processParts_dispatch (c : Connector) (h : Handler) (cmd : String)
    (args : List String) (cn : CmdName)
    (hf : handlerFor (pyLower cmd) = some cn)
    (h3 : h.state ≠ .initializing) (h4 : h.state ≠ .terminating) :
    processParts c h (cmd :: args) = dispatchWrap c h cn args := by
  obtain ⟨s, pos, rn⟩ := h
  cases s <;> simp_all [processParts, hf]

theorem uci_fields (c : Connector) (s : GameState) (pos : Board) (rn : Bool)
    (h3 : s ≠ .initializing) (h4 : s ≠ .terminating) :
    (handleUci c ⟨s, pos, rn⟩).h.state ≠ .initializing ∧
    (handleUci c ⟨s, pos, rn⟩).h.state ≠ .terminating ∧
    (handleUci c ⟨s, pos, rn⟩).h.running = rn ∧
    (handleUci c ⟨s, pos, rn⟩).calls.count .shutdownC = 0 := by
  simp_all [handleUci]

theorem isready_fields (c : Connector) (s : GameState) (pos : Board) (rn : Bool)
    (h3 : s ≠ .initializing) (h4 : s ≠ .terminating) :
    (handleIsready c ⟨s, pos, rn⟩).h.state ≠ .initializing ∧
    (handleIsready c ⟨s, pos, rn⟩).h.state ≠ .terminating ∧
    (handleIsready c ⟨s, pos, rn⟩).h.running = rn ∧
    (handleIsready c ⟨s, pos, rn⟩).calls.count .shutdownC = 0 := by
  by_cases hse : s = .error <;>
    rcases hrec : c.recoveryOp with u | (_ | _) <;>
    rcases hird : c.isReadyOp with u2 | (_ | _) <;>
    rcases hini : c.initOp with u3 | (_ | _) <;>
      simp_all [handleIsready, initializeStep]

theorem ucinewgame_fields (c : Connector) (s : GameState) (pos : Board) (rn : Bool) :
    (handleUcinewgame c ⟨s, pos, rn⟩).h.state ≠ .initializing ∧
    (handleUcinewgame c ⟨s, pos, rn⟩).h.state ≠ .terminating ∧
    (handleUcinewgame c ⟨s, pos, rn⟩).h.running = rn ∧
    (handleUcinewgame c ⟨s, pos, rn⟩).calls.count .shutdownC = 0 := by
  rcases hng : c.newGameOp with u | (_ | _) <;>
    rcases hc : c.engColor with _ | _ <;>
      simp_all [handleUcinewgame]

theorem position_fields (s : GameState) (pos : Board) (rn : Bool)
    (args : List String) (h3 : s ≠ .initializing) (h4 : s ≠ .terminating) :
    (handlePosition ⟨s, pos, rn⟩ args).h.state ≠ .initializing ∧
    (handlePosition ⟨s, pos, rn⟩ args).h.state ≠ .terminating ∧
    (handlePosition ⟨s, pos, rn⟩ args).h.running = rn ∧
    (handlePosition ⟨s, pos, rn⟩ args).calls.count .shutdownC = 0 := by
  simp only [handlePosition, afterBase]
  repeat' split
  all_goals simp_all

theorem go_fields (c : Connector) (s : GameState) (pos : Board) (rn : Bool)
    (args : List String) :
    (handleGo c ⟨s, pos, rn⟩ args).h.state ≠ .initializing ∧
    (handleGo c ⟨s, pos, rn⟩ args).h.state ≠ .terminating ∧
    (handleGo c ⟨s, pos, rn⟩ args).h.running = rn ∧
    (handleGo c ⟨s, pos, rn⟩ args).calls.count .shutdownC = 0 := by
  rcases hsp : c.setupPosOp with u | (_ | _) <;>
    rcases hwm : c.waitMoveOp with u2 | (_ | mv) <;>
    rcases hsup : c.supportsPonderOp with u3 | b <;>
    by_cases hpo : args.contains "ponder" <;>
      simp_all [handleGo] <;>
      split <;> simp_all

theorem stop_fields (c : Connector) (s : GameState) (pos : Board) (rn : Bool)
    (h3 : s ≠ .initializing) (h4 : s ≠ .terminating) :
    (handleStop c ⟨s, pos, rn⟩).h.state ≠ .initializing ∧
    (handleStop c ⟨s, pos, rn⟩).h.state ≠ .terminating ∧
    (handleStop c ⟨s, pos, rn⟩).h.running = rn ∧
    (handleStop c ⟨s, pos, rn⟩).calls.count .shutdownC = 0 := by
  simp only [handleStop]
  repeat' split
  all_goals simp_all

theorem ponderhit_fields (s : GameState) (pos : Board) (rn : Bool)
    (h3 : s ≠ .initializing) (h4 : s ≠ .terminating) :
    (handlePonderhit ⟨s, pos, rn⟩).h.state ≠ .initializing ∧
    (handlePonderhit ⟨s, pos, rn⟩).h.state ≠ .terminating ∧
    (handlePonderhit ⟨s, pos, rn⟩).h.running = rn ∧
    (handlePonderhit ⟨s, pos, rn⟩).calls.count .shutdownC = 0 := by
  simp only [handlePonderhit]
  repeat' split
  all_goals simp_all

theorem setoption_fields (c : Connector) (s : GameState) (pos : Board) (rn : Bool)
    (args : List String) (h3 : s ≠ .initializing) (h4 : s ≠ .terminating) :
    (handleSetoption c ⟨s, pos, rn⟩ args).h.state ≠ .initializing ∧
    (handleSetoption c ⟨s, pos, rn⟩ args).h.state ≠ .terminating ∧
    (handleSetoption c ⟨s, pos, rn⟩ args).h.running = rn ∧
    (handleSetoption c ⟨s, pos, rn⟩ args).calls.count .shutdownC = 0 := by
  simp only [handleSetoption]
  repeat' split
  all_goals simp_all

theorem dispatchWrap_fields (c : Connector) (h : Handler) (cn : CmdName)
    (args : List String) :
    ((dispatchWrap c h cn args).h.state = (runHandler c h cn args).h.state ∨
      (dispatchWrap c h cn args).h.state = .error) ∧
    (dispatchWrap c h cn args).h.running = (runHandler c h cn args).h.running ∧
    (dispatchWrap c h cn args).calls = (runHandler c h cn args).calls := by
  by_cases ht : (runHandler c h cn args).thrown <;> simp [dispatchWrap, ht]

theorem quit_dispatch (c : Connector) (h : Handler) (args : List String)
    (hsd : c.shutdownOp = .ok ()) :
    dispatchWrap c h .quit args =
      ⟨⟨.terminating, h.position, false⟩, [.shutdownC], [], [.terminating], false⟩ := by
  simp [dispatchWrap, runHandler, handleQuit, hsd]

theorem nonquit_invariant (c : Connector) (h : Handler) (cn : CmdName)
    (args : List String) (hq : cn ≠ .quit)
    (h3 : h.state ≠ .initializing) (h4 : h.state ≠ .terminating) :
    (dispatchWrap c h cn args).h.state ≠ .initializing ∧
    (dispatchWrap c h cn args).h.state ≠ .terminating ∧
    (dispatchWrap c h cn args).h.running = h.running ∧
    (dispatchWrap c h cn args).calls.count .shutdownC = 0 := by
  obtain ⟨s, pos, rn⟩ := h
  obtain ⟨hds, hdr, hdc⟩ := dispatchWrap_fields c ⟨s, pos, rn⟩ cn args
  have hrf : (runHandler c ⟨s, pos, rn⟩ cn args).h.state ≠ .initializing ∧
      (runHandler c ⟨s, pos, rn⟩ cn args).h.state ≠ .terminating ∧
      (runHandler c ⟨s, pos, rn⟩ cn args).h.running = rn ∧
      (runHandler c ⟨s, pos, rn⟩ cn args).calls.count .shutdownC = 0 := by
    cases cn
    case uci => exact uci_fields c s pos rn h3 h4
    case isready => exact isready_fields c s pos rn h3 h4
    case ucinewgame => exact ucinewgame_fields c s pos rn
    case position => exact position_fields s pos rn args h3 h4
    case go => exact go_fields c s pos rn args
    case stop => exact stop_fields c s pos rn h3 h4
    case ponderhit => exact ponderhit_fields s pos rn h3 h4
    case setoption => exact setoption_fields c s pos rn args h3 h4
    case quit => exact absurd rfl hq
  refine ⟨?_, ?_, ?_, ?_⟩
  · rcases hds with hds | hds
    · rw [hds]; exact hrf.1
    · rw [hds]; simp
  · rcases hds with hds | hds
    · rw [hds]; exact hrf.2.1
    · rw [hds]; simp
  · rw [hdr]; exact hrf.2.2.1
  · rw [hdc]; exact hrf.2.2.2

theorem step_invariant (c : Connector) (h : Handler) (parts : List String)
    (hsd : c.shutdownOp = .ok ()) (h3 : h.state ≠ .initializing)
    (h4 : h.state ≠ .terminating) (hr : h.running = true) :
    ((processParts c h parts).h.state = .terminating ∧
      (processParts c h parts).h.running = false ∧
      (processParts c h parts).calls.count .shutdownC = 1) ∨
    ((processParts c h parts).h.state ≠ .initializing ∧
      (processParts c h parts).h.state ≠ .terminating ∧
      (processParts c h parts).h.running = true ∧
      (processParts c h parts).calls.count .shutdownC = 0) := by
  rcases parts with _ | ⟨cmd0, args⟩
  · right
    simpa [processParts] using ⟨h3, h4, hr⟩
  · rcases hf : handlerFor (pyLower cmd0) with _ | cn
    · right
      rw [processParts_unknown c h cmd0 args hf]
      exact ⟨h3, h4, hr, rfl⟩
    · rw [processParts_dispatch c h cmd0 args cn hf h3 h4]
      by_cases hq : cn = CmdName.quit
      · left
        subst hq
        rw [quit_dispatch c h args hsd]
        simp
      · right
        obtain ⟨g1, g2, g3, g4⟩ := nonquit_invariant c h cn args hq h3 h4
        exact ⟨g1, g2, g3.trans hr, g4⟩

theorem runLoop_stopped (c : Connector) (h : Handler) (lines : List String)
    (hr : h.running = false) : runLoop c h lines = ⟨h, [], []⟩ := by
  cases lines <;> simp [runLoop, hr]

theorem runLoop_invariant (c : Connector) (hsd : c.shutdownOp = .ok ())
    (lines : List String) :
    ∀ h : Handler, h.running = true → h.state ≠ .initializing →
      h.state ≠ .terminating →
      (((runLoop c h lines).h.state = .terminating ∧
        (runLoop c h lines).h.running = false ∧
        (runLoop c h lines).calls.count .shutdownC = 1) ∨
      ((runLoop c h lines).h.state ≠ .initializing ∧
        (runLoop c h lines).h.state ≠ .terminating ∧
        (runLoop c h lines).h.running = true ∧
        (runLoop c h lines).calls.count .shutdownC = 0)) := by
  induction lines with
  | nil =>
      intro h hr h3 h4
      right
      simpa [runLoop] using ⟨h3, h4, hr⟩
  | cons l rest ih =>
      intro h hr h3 h4
      by_cases ht : l.trim = ""
      · simpa [runLoop, hr, ht] using ih h hr h3 h4
      · have hstep := step_invariant c h (pySplit l.trim) hsd h3 h4 hr
        rcases hstep with ⟨hs1, hs2, hs3⟩ | ⟨hs1, hs2, hs3, hs4⟩
        · left
          have hstop := runLoop_stopped c (processParts c h (pySplit l.trim)).h rest hs2
          simp [runLoop, hr, ht, hstop, hs1, hs2, hs3]
        · have hrest := ih (processParts c h (pySplit l.trim)).h hs3 hs1 hs2
          rcases hrest with ⟨hk1, hk2, hk3⟩ | ⟨hk1, hk2, hk3, hk4⟩
          · left
            simp [runLoop, hr, ht, hk1, hk2, List.count_append, hs4, hk3]
          · right
            simp [runLoop, hr, ht, hk1, hk2, hk3, List.count_append, hs4, hk4]

theorem runHandler_running_nonquit (c : Connector) (s : GameState) (pos : Board)
    (rn : Bool) (cn : CmdName) (args : List String) (hq : cn ≠ .quit)
    (h3 : s ≠ .initializing) (h4 : s ≠ .terminating) :
    (runHandler c ⟨s, pos, rn⟩ cn args).h.running = rn := by
  cases cn
  case uci => exact (uci_fields c s pos rn h3 h4).2.2.1
  case isready => exact (isready_fields c s pos rn h3 h4).2.2.1
  case ucinewgame => exact (ucinewgame_fields c s pos rn).2.2.1
  case position => exact (position_fields s pos rn args h3 h4).2.2.1
  case go => exact (go_fields c s pos rn args).2.2.1
  case stop => exact (stop_fields c s pos rn h3 h4).2.2.1
  case ponderhit => exact (ponderhit_fields s pos rn h3 h4).2.2.1
  case setoption => exact (setoption_fields c s pos rn args h3 h4).2.2.1
  case quit => exact absurd rfl hq

theorem runHandler_quit_thrown_running (c : Connector) (s : GameState)
    (pos : Board) (rn : Bool) (args : List String)
    (hth : (runHandler c ⟨s, pos, rn⟩ .quit args).thrown = true) :
    (runHandler c ⟨s, pos, rn⟩ .quit args).h.running = rn := by
  rcases hsd : c.shutdownOp with u | u2 <;> simp_all [runHandler, handleQuit]

/-- C3 counterexample: `go` is not in GAME_READY's valid-command set, yet
dispatching it from GAME_READY changes the state (to OBSERVING) and performs
Connector calls — `_process_command` only logs the mismatch and falls
through to the handler. -/
theorem invalid_go_dispatched_counterexample :
    isCmdValid .gameReady "go" = false ∧
    (processCommand {} ⟨.gameReady, startBoard, true⟩ "go").h.state = .observing ∧
    (processCommand {} ⟨.gameReady, startBoard, true⟩ "go").calls =
      [.setupPosC, .waitMoveC] := by
  decide

/-- C3 (amended): a command outside the current state's valid set is dropped
(state unchanged, no Connector calls, no output) only when the state is
INITIALIZING or TERMINATING, or when the command has no handler at all; in
every other state the command — valid or not — is still dispatched to its
handler through the exception-catching wrapper. -/
theorem invalid_command_handling (c : Connector) (h : Handler) (cmd : String)
    (args : List String) :
    ((h.state = .initializing ∨ h.state = .terminating) →
      processParts c h (cmd :: args) = ⟨h, [], [], [], false⟩) ∧
    (handlerFor (pyLower cmd) = none →
      processParts c h (cmd :: args) = ⟨h, [], [], [], false⟩) ∧
    (∀ cn, handlerFor (pyLower cmd) = some cn → h.state ≠ .initializing →
      h.state ≠ .terminating →
      processParts c h (cmd :: args) = dispatchWrap c h cn args) :=
  ⟨processParts_drop_state c h cmd args,
   processParts_unknown c h cmd args,
   fun cn hf h3 h4 => processParts_dispatch c h cmd args cn hf h3 h4⟩

theorem invalid_command_handling_witness :
    processParts {} ⟨.terminating, startBoard, false⟩ ["go"] =
      ⟨⟨.terminating, startBoard, false⟩, [], [], [], false⟩ :=
  (invalid_command_handling {} ⟨.terminating, startBoard, false⟩ "go" []).1
    (Or.inr rfl)

/-- C4 counterexample: after `position startpos moves e2e4 zzzz` — whose
last token is malformed — the tracked position is not the one held before
the command: e2e4 has been applied (square e4 now holds a white pawn, empty
beforehand), so partial application is observable. -/
theorem position_not_atomic_counterexample :
    parseUci "zzzz" = none ∧
    (processCommand {} ⟨.gameReady, startBoard, true⟩
        "position startpos moves e2e4 zzzz").h.position.pieceAt 28 =
      some ⟨PAWN, .white⟩ ∧
    startBoard.pieceAt 28 = none := by
  decide

/-- C4 (amended): the `position` update is not atomic.  On a malformed move
token the handler stops at that token and returns, but the replacement of
the base position and every move parsed before the bad token remain applied;
the dispatcher state is unchanged and no Connector calls are made.
(Illegal but well-formed moves are not detected at all: `push` applies
them.) -/
theorem position_malformed_partial (c : Connector) (h : Handler)
    (toks : List String) (h3 : h.state ≠ .initializing)
    (h4 : h.state ≠ .terminating)
    (hap : (applyMoveTokens startBoard toks).2 = ApplyExit.parseFail) :
    processParts c h ("position" :: "startpos" :: "moves" :: toks) =
      ⟨{ h with position := (applyMoveTokens startBoard toks).1 }, [], [], [],
        false⟩ := by
  rw [processParts_dispatch c h "position" ("startpos" :: "moves" :: toks)
    .position rfl h3 h4]
  rcases hstep : applyMoveTokens startBoard toks with ⟨b', ex⟩
  rw [hstep] at hap
  simp only at hap
  subst hap
  simp [dispatchWrap, runHandler, handlePosition, afterBase, hstep]

theorem position_malformed_partial_witness :
    processParts {} ⟨.gameReady, startBoard, true⟩
        ["position", "startpos", "moves", "e2e4", "zzzz"] =
      ⟨⟨.gameReady, (applyMoveTokens startBoard ["e2e4", "zzzz"]).1, true⟩,
        [], [], [], false⟩ :=
  position_malformed_partial {} ⟨.gameReady, startBoard, true⟩ ["e2e4", "zzzz"]
    (by decide) (by decide) (by decide)

/-- C5 counterexample: INITIALIZING is a non-terminal state, but processing
`quit` there is dropped by the INITIALIZING guard of `_process_command`: the
state stays INITIALIZING and no shutdown call is made. -/
theorem quit_ignored_in_initializing_counterexample :
    (processCommand {} ⟨.initializing, startBoard, true⟩ "quit").h.state =
      .initializing ∧
    (processCommand {} ⟨.initializing, startBoard, true⟩ "quit").calls = [] := by
  decide

/-- C5 (amended): when the Connector's shutdown succeeds, processing `quit`
from any non-terminal state other than INITIALIZING (where all commands are
dropped — the run loop never dispatches commands in that state) transitions
to TERMINATING with exactly one shutdown call; and at session level every
`run`, over any input — `quit` or end-of-input — performs exactly one
shutdown call and ends in TERMINATING. -/
theorem quit_terminates_once (c : Connector) (hsd : c.shutdownOp = .ok ()) :
    (∀ h : Handler, h.state ≠ .initializing → h.state ≠ .terminating →
      processParts c h ["quit"] =
        ⟨⟨.terminating, h.position, false⟩, [.shutdownC], [], [.terminating],
          false⟩) ∧
    (∀ lines : List String,
      (run c lines).calls.count .shutdownC = 1 ∧
      (run c lines).h.state = .terminating) := by
  constructor
  · intro h h3 h4
    rw [processParts_dispatch c h "quit" [] .quit rfl h3 h4]
    exact quit_dispatch c h [] hsd
  · intro lines
    rcases hini : c.initOp with u | (_ | _)
    · have hrl := runLoop_invariant c hsd lines ⟨.error, startBoard, true⟩
        rfl (by decide) (by decide)
      rcases hrl with ⟨hk1, hk2, hk3⟩ | ⟨hk1, hk2, hk3, hk4⟩ <;>
        simp_all [run, initializeStep, List.count_append, handleQuit, hsd]
    · have hrl := runLoop_invariant c hsd lines ⟨.error, startBoard, true⟩
        rfl (by decide) (by decide)
      rcases hrl with ⟨hk1, hk2, hk3⟩ | ⟨hk1, hk2, hk3, hk4⟩ <;>
        simp_all [run, initializeStep, List.count_append, handleQuit, hsd]
    · have hrl := runLoop_invariant c hsd lines ⟨.gameReady, startBoard, true⟩
        rfl (by decide) (by decide)
      rcases hrl with ⟨hk1, hk2, hk3⟩ | ⟨hk1, hk2, hk3, hk4⟩ <;>
        simp_all [run, initializeStep, List.count_append, handleQuit, hsd]

theorem quit_terminates_once_witness :
    (run {} ["quit"]).calls.count .shutdownC = 1 ∧
    (run {} ["quit"]).h.state = .terminating :=
  (quit_terminates_once {} rfl).2 ["quit"]

/-- C6: on a `go` command, when the Connector's position setup succeeds and
its blocking own-move operation yields no move, the dispatcher emits no
output at all (in particular no `bestmove` line) and ends in OBSERVING, not
ERROR. -/
theorem go_failure_no_bestmove (c : Connector) (h : Handler) (args : List String)
    (h1 : c.setupPosOp = .ok true) (h2 : c.waitMoveOp = .ok none)
    (h3 : h.state ≠ .initializing) (h4 : h.state ≠ .terminating) :
    (processParts c h ("go" :: args)).h.state = .observing ∧
    (processParts c h ("go" :: args)).outs = [] := by
  rw [processParts_dispatch c h "go" args .go rfl h3 h4]
  simp [dispatchWrap, runHandler, handleGo, h1, h2]

theorem go_failure_no_bestmove_witness :
    (processParts {} ⟨.observing, startBoard, true⟩ ["go"]).h.state = .observing ∧
    (processParts {} ⟨.observing, startBoard, true⟩ ["go"]).outs = [] :=
  go_failure_no_bestmove {} ⟨.observing, startBoard, true⟩ [] rfl rfl
    (by decide) (by decide)

/-- C8: `ucinewgame` first transitions to CONFIGURING and asks the Connector
to reset the game (exactly one `setup_new_game` call); on success the
tracked position is reset to the standard starting arrangement and the state
becomes COMPUTING when the engine colour is white and OBSERVING when it is
black; on failure (returned false or raised) the state becomes ERROR. -/
theorem ucinewgame_behavior (c : Connector) (h : Handler)
    (h3 : h.state ≠ .initializing) (h4 : h.state ≠ .terminating) :
    (processParts c h ["ucinewgame"]).trans.head? = some .configuring ∧
    (processParts c h ["ucinewgame"]).calls = [.newGameC] ∧
    (c.newGameOp = .ok true → c.engColor = .white →
      (processParts c h ["ucinewgame"]).h.state = .computing ∧
      (processParts c h ["ucinewgame"]).h.position = startBoard) ∧
    (c.newGameOp = .ok true → c.engColor = .black →
      (processParts c h ["ucinewgame"]).h.state = .observing ∧
      (processParts c h ["ucinewgame"]).h.position = startBoard) ∧
    (c.newGameOp = .ok false →
      (processParts c h ["ucinewgame"]).h.state = .error) ∧
    (c.newGameOp = .error () →
      (processParts c h ["ucinewgame"]).h.state = .error) := by
  rw [processParts_dispatch c h "ucinewgame" [] .ucinewgame rfl h3 h4]
  rcases hng : c.newGameOp with u | (_ | _) <;>
    rcases hc : c.engColor with _ | _ <;>
      simp_all [dispatchWrap, runHandler, handleUcinewgame]

theorem ucinewgame_behavior_witness :
    (processParts {} ⟨.gameReady, startBoard, true⟩ ["ucinewgame"]).trans.head? =
      some .configuring ∧
    (processParts {} ⟨.gameReady, startBoard, true⟩ ["ucinewgame"]).h.state =
      .computing :=
  ⟨(ucinewgame_behavior {} ⟨.gameReady, startBoard, true⟩ (by decide)
      (by decide)).1,
   ((ucinewgame_behavior {} ⟨.gameReady, startBoard, true⟩ (by decide)
      (by decide)).2.2.1 rfl rfl).1⟩

/-- C9: the session never terminates because of a single bad command: for
every dispatched command line whose handler raises, `_process_command`
catches the exception, forces the state to ERROR and leaves the loop flag
untouched; the run loop keeps reading subsequent lines; and ERROR still
accepts `isready` and `quit`. -/
theorem handler_throw_forces_error (c : Connector) :
    (∀ (h : Handler) (cmd : String) (args : List String) (cn : CmdName),
      handlerFor (pyLower cmd) = some cn → h.state ≠ .initializing →
      h.state ≠ .terminating → (runHandler c h cn args).thrown = true →
      (processParts c h (cmd :: args)).h.state = .error ∧
      (processParts c h (cmd :: args)).h.running = h.running ∧
      (processParts c h (cmd :: args)).thrown = false) ∧
    (∀ (h : Handler) (l : String) (rest : List String), h.running = true →
      l.trim ≠ "" →
      runLoop c h (l :: rest) =
        ⟨(runLoop c (processParts c h (pySplit l.trim)).h rest).h,
          (processParts c h (pySplit l.trim)).calls ++
            (runLoop c (processParts c h (pySplit l.trim)).h rest).calls,
          (processParts c h (pySplit l.trim)).outs ++
            (runLoop c (processParts c h (pySplit l.trim)).h rest).outs⟩) ∧
    isCmdValid .error "isready" = true ∧ isCmdValid .error "quit" = true := by
  refine ⟨?_, ?_, by decide, by decide⟩
  · intro h cmd args cn hf h3 h4 hth
    obtain ⟨s, pos, rn⟩ := h
    have hrun : (runHandler c ⟨s, pos, rn⟩ cn args).h.running = rn := by
      by_cases hq : cn = CmdName.quit
      · subst hq
        exact runHandler_quit_thrown_running c s pos rn args hth
      · exact runHandler_running_nonquit c s pos rn cn args hq h3 h4
    rw [processParts_dispatch c ⟨s, pos, rn⟩ cmd args cn hf h3 h4]
    simp [dispatchWrap, hth, hrun]
  · intro h l rest hr ht
    simp [runLoop, hr, ht]

theorem handler_throw_forces_error_witness :
    (processParts { isReadyOp := .error () } ⟨.gameReady, startBoard, true⟩
        ["isready"]).h.state = .error ∧
    (processParts { isReadyOp := .error () } ⟨.gameReady, startBoard, true⟩
        ["isready"]).h.running = true ∧
    (processParts { isReadyOp := .error () } ⟨.gameReady, startBoard, true⟩
        ["isready"]).thrown = false :=
  (handler_throw_forces_error { isReadyOp := .error () }).1
    ⟨.gameReady, startBoard, true⟩ "isready" [] .isready rfl (by decide)
    (by decide) rfl

end AccentChess
